import Mathlib

/-!
Verification of the credential store, OAuth login flow and multi-account
service registry of the go-google-mcp repository.

The Go code is shallowly embedded: the filesystem is an explicit state
(a set of directories plus a map from paths to file contents), every
store operation returns its result together with the updated filesystem
and a log of the filesystem accesses it performed, and the registry and
login flow are explicit state-passing functions.  External collaborators
(the Google SDK client constructors and the credential-loading helper
called by the registry) are abstracted as oracles recording only whether
they succeed, which is the only part of their behaviour the registry
logic depends on.
-/

/-- A filesystem path, as a list of components (the Go code builds paths
with filepath.Join from validated components). -/
abbrev FsPath := List String

/-- An OAuth2 token as serialized by the store: access token, token type,
refresh token and expiry (as a timestamp).  Mirrors the JSON fields of
golang.org/x/oauth2.Token that json.Encoder writes. -/
structure Token where
  accessToken : String
  tokenType : String
  refreshToken : String
  expiry : Int
deriving DecidableEq, Repr

/-- Content of a file in the model: a JSON-encoded token, opaque bytes
(client secrets are copied verbatim), or content that does not decode as
a token. -/
inductive FileData where
  | tokenJSON : Token → FileData
  | bytes : String → FileData
  | invalid : String → FileData
deriving DecidableEq, Repr

/-- A directory entry as returned by os.ReadDir: a name plus whether the
entry is a directory. -/
structure DirEntry where
  name : String
  isDir : Bool
deriving DecidableEq, Repr

/-- The filesystem state: the set of existing directories and the
existing files with their contents. -/
structure FS where
  dirs : List FsPath
  files : List (FsPath × FileData)
deriving DecidableEq, Repr

/-- One filesystem access performed by a store operation (used to state
the before-any-filesystem-access requirements). -/
inductive Access where
  | mkdir : FsPath → Access
  | readF : FsPath → Access
  | writeF : FsPath → Access
  | readDirA : FsPath → Access
deriving DecidableEq, Repr

/-- Look up the content of a file (os.Open / os.ReadFile succeeding). -/
def FS.lookupFile (fs : FS) (p : FsPath) : Option FileData :=
  (fs.files.find? (fun e => e.1 = p)).map (·.2)

/-- Write a file, replacing any previous content (os.Create /
os.WriteFile). -/
def FS.writeFile (fs : FS) (p : FsPath) (d : FileData) : FS :=
  { fs with files := (p, d) :: fs.files.filter (fun e => !(decide (e.1 = p))) }

/-- All non-empty initial segments of a path, shortest first. -/
def pathAncestors (p : FsPath) : List FsPath :=
  (List.range p.length).map (fun i => p.take (i + 1))

/-- os.MkdirAll: create the directory and all missing ancestors. -/
def FS.mkdirAll (fs : FS) (p : FsPath) : FS :=
  { fs with dirs := (pathAncestors p).filter (fun q => !(decide (q ∈ fs.dirs))) ++ fs.dirs }

/-- os.Stat succeeding: the path names an existing file or directory. -/
def FS.statOk (fs : FS) (p : FsPath) : Bool :=
  (fs.lookupFile p).isSome || decide (p ∈ fs.dirs)

/-- The names of the immediate subdirectories of p. -/
def FS.childDirNames (fs : FS) (p : FsPath) : List String :=
  (fs.dirs.filterMap (fun d =>
    if d.length = p.length + 1 ∧ d.take p.length = p then (d.drop p.length).head? else none)).dedup

/-- The names of the immediate child files of p. -/
def FS.childFileNames (fs : FS) (p : FsPath) : List String :=
  (fs.files.filterMap (fun e =>
    if e.1.length = p.length + 1 ∧ e.1.take p.length = p then (e.1.drop p.length).head? else none)).dedup

/-- The entries os.ReadDir reports for directory p. -/
def FS.childEntries (fs : FS) (p : FsPath) : List DirEntry :=
  (fs.childDirNames p).map (fun n => ⟨n, true⟩) ++
    ((fs.childFileNames p).filter (fun n => !(decide (n ∈ fs.childDirNames p)))).map
      (fun n => ⟨n, false⟩)

/-- Errors raised by the credential store. -/
inductive StoreErr where
  | homeDirFailed
  | notExist : FsPath → StoreErr
  | corrupt : FsPath → StoreErr
  | emptyAccountName
  | invalidName : String → StoreErr
deriving DecidableEq, Repr

/-- os.ReadDir: fails when the directory does not exist. -/
def FS.readDir (fs : FS) (p : FsPath) : Except StoreErr (List DirEntry) :=
  if p ∈ fs.dirs then .ok (fs.childEntries p) else .error (.notExist p)

/-- The environment the store reads: the GO_GOOGLE_MCP_CONFIG_DIR
variable (empty when unset), the BaseDir test override (empty when
unset), and the result of os.UserHomeDir (none when it fails). -/
structure Env where
  configDirEnv : String
  baseDir : String
  home : Option String
deriving DecidableEq, Repr

def ConfigDirName : String := ".go-google-mcp"
def TokenFileName : String := "token.json"
def SecretsFileName : String := "client_secrets.json"
def AccountsDirName : String := "accounts"

/-- The configuration root GetConfigDir resolves, before creating it:
the environment override wins, else BaseDir (or the home directory)
joined with the fixed subdirectory name. -/
def configRoot (env : Env) : Except StoreErr FsPath :=
  if env.configDirEnv ≠ "" then .ok [env.configDirEnv]
  else if env.baseDir ≠ "" then .ok [env.baseDir, ConfigDirName]
  else match env.home with
    | some h => .ok [h, ConfigDirName]
    | none => .error .homeDirFailed

/-- auth.GetConfigDir: resolve the configuration directory and create it
(os.MkdirAll) if absent. -/
def GetConfigDir (env : Env) (fs : FS) : Except StoreErr FsPath × FS × List Access :=
  match configRoot env with
  | .error e => (.error e, fs, [])
  | .ok dir => (.ok dir, fs.mkdirAll dir, [.mkdir dir])

/-- auth.SaveToken: write the JSON-encoded token at the legacy root
path <config>/token.json. -/
def SaveToken (env : Env) (token : Token) (fs : FS) : Except StoreErr Unit × FS × List Access :=
  match GetConfigDir env fs with
  | (.error e, fs1, log) => (.error e, fs1, log)
  | (.ok dir, fs1, log) =>
    let path := dir ++ [TokenFileName]
    (.ok (), fs1.writeFile path (.tokenJSON token), log ++ [.writeF path])

/-- auth.LoadToken: read and decode the legacy root token file. -/
def LoadToken (env : Env) (fs : FS) : Except StoreErr Token × FS × List Access :=
  match GetConfigDir env fs with
  | (.error e, fs1, log) => (.error e, fs1, log)
  | (.ok dir, fs1, log) =>
    let path := dir ++ [TokenFileName]
    match fs1.lookupFile path with
    | none => (.error (.notExist path), fs1, log ++ [.readF path])
    | some (.tokenJSON t) => (.ok t, fs1, log ++ [.readF path])
    | some _ => (.error (.corrupt path), fs1, log ++ [.readF path])

/-- auth.SaveSecrets: copy the bytes of an external secrets file to the
shared path <config>/client_secrets.json. -/
def SaveSecrets (env : Env) (srcPath : FsPath) (fs : FS) : Except StoreErr Unit × FS × List Access :=
  match fs.lookupFile srcPath with
  | none => (.error (.notExist srcPath), fs, [.readF srcPath])
  | some content =>
    match GetConfigDir env fs with
    | (.error e, fs1, log) => (.error e, fs1, .readF srcPath :: log)
    | (.ok dir, fs1, log) =>
      let dst := dir ++ [SecretsFileName]
      (.ok (), fs1.writeFile dst content, .readF srcPath :: (log ++ [.writeF dst]))

/-- auth.LoadSecrets: read the shared secrets file. -/
def LoadSecrets (env : Env) (fs : FS) : Except StoreErr FileData × FS × List Access :=
  match GetConfigDir env fs with
  | (.error e, fs1, log) => (.error e, fs1, log)
  | (.ok dir, fs1, log) =>
    let path := dir ++ [SecretsFileName]
    match fs1.lookupFile path with
    | none => (.error (.notExist path), fs1, log ++ [.readF path])
    | some d => (.ok d, fs1, log ++ [.readF path])

/-- sub occurs as a contiguous sublist of s: it starts at the head or
occurs in the tail. -/
def listContainsSub (s sub : List Char) : Bool :=
  match s with
  | [] => sub.isEmpty
  | _ :: t => sub.isPrefixOf s || listContainsSub t sub

/-- strings.Contains: sub occurs as a substring of s. -/
def stringsContains (s sub : String) : Bool :=
  listContainsSub s.data sub.data

/-- auth.validateAccountName: reject empty names and names containing
"..", "/", "\\" or NUL, which could escape the accounts directory. -/
def validateAccountName (account : String) : Except StoreErr Unit :=
  if account = "" then .error .emptyAccountName
  else if stringsContains account ".." || stringsContains account "/" ||
      stringsContains account "\\" || stringsContains account "\x00" then
    .error (.invalidName account)
  else .ok ()

/-- auth.IsMultiAccount: true when the accounts/ subdirectory exists and
some subdirectory of it contains a token.json (checked with os.Stat); a
missing accounts/ directory is reported as false without error. -/
def IsMultiAccount (env : Env) (fs : FS) : Except StoreErr Bool × FS × List Access :=
  match GetConfigDir env fs with
  | (.error e, fs1, log) => (.error e, fs1, log)
  | (.ok dir, fs1, log) =>
    let accountsDir := dir ++ [AccountsDirName]
    match fs1.readDir accountsDir with
    | .error _ => (.ok false, fs1, log ++ [.readDirA accountsDir])
    | .ok entries =>
      let found := entries.any (fun e =>
        e.isDir && fs1.statOk (accountsDir ++ [e.name, TokenFileName]))
      (.ok found, fs1, log ++ [.readDirA accountsDir])

/-- auth.ListAccounts: the names of the accounts/ subdirectories that
contain a token.json; an absent accounts/ directory yields the empty
list without error. -/
def ListAccounts (env : Env) (fs : FS) : Except StoreErr (List String) × FS × List Access :=
  match GetConfigDir env fs with
  | (.error e, fs1, log) => (.error e, fs1, log)
  | (.ok dir, fs1, log) =>
    let accountsDir := dir ++ [AccountsDirName]
    match fs1.readDir accountsDir with
    | .error _ => (.ok [], fs1, log ++ [.readDirA accountsDir])
    | .ok entries =>
      let accounts := entries.filterMap (fun e =>
        if e.isDir && fs1.statOk (accountsDir ++ [e.name, TokenFileName]) then some e.name
        else none)
      (.ok accounts, fs1, log ++ [.readDirA accountsDir])

/-- auth.GetAccountDir: validate the account name, then resolve and
create <config>/accounts/<account>. -/
def GetAccountDir (env : Env) (account : String) (fs : FS) :
    Except StoreErr FsPath × FS × List Access :=
  match validateAccountName account with
  | .error e => (.error e, fs, [])
  | .ok _ =>
    match GetConfigDir env fs with
    | (.error e, fs1, log) => (.error e, fs1, log)
    | (.ok dir, fs1, log) =>
      let accountDir := dir ++ [AccountsDirName, account]
      (.ok accountDir, fs1.mkdirAll accountDir, log ++ [.mkdir accountDir])

/-- auth.SaveTokenForAccount: write the JSON-encoded token at
<config>/accounts/<account>/token.json. -/
def SaveTokenForAccount (env : Env) (account : String) (token : Token) (fs : FS) :
    Except StoreErr Unit × FS × List Access :=
  match GetAccountDir env account fs with
  | (.error e, fs1, log) => (.error e, fs1, log)
  | (.ok dir, fs1, log) =>
    let path := dir ++ [TokenFileName]
    (.ok (), fs1.writeFile path (.tokenJSON token), log ++ [.writeF path])

/-- auth.LoadTokenForAccount: read and decode the per-account token
file. -/
def LoadTokenForAccount (env : Env) (account : String) (fs : FS) :
    Except StoreErr Token × FS × List Access :=
  match GetAccountDir env account fs with
  | (.error e, fs1, log) => (.error e, fs1, log)
  | (.ok dir, fs1, log) =>
    let path := dir ++ [TokenFileName]
    match fs1.lookupFile path with
    | none => (.error (.notExist path), fs1, log ++ [.readF path])
    | some (.tokenJSON t) => (.ok t, fs1, log ++ [.readF path])
    | some _ => (.error (.corrupt path), fs1, log ++ [.readF path])

/-- auth.LoadSecretsForAccount: try the per-account secrets file first
and fall back to the shared secrets file when that read fails. -/
def LoadSecretsForAccount (env : Env) (account : String) (fs : FS) :
    Except StoreErr FileData × FS × List Access :=
  match GetAccountDir env account fs with
  | (.error e, fs1, log) => (.error e, fs1, log)
  | (.ok dir, fs1, log) =>
    let perAccount := dir ++ [SecretsFileName]
    match fs1.lookupFile perAccount with
    | some d => (.ok d, fs1, log ++ [.readF perAccount])
    | none =>
      match LoadSecrets env fs1 with
      | (r, fs2, log2) => (r, fs2, log ++ [.readF perAccount] ++ log2)

/-- auth.SaveSecretsForAccount: read the source secrets file, then copy
its bytes into the account directory.  Note the source read happens
before the account name is validated (validation is inside
GetAccountDir). -/
def SaveSecretsForAccount (env : Env) (account : String) (srcPath : FsPath) (fs : FS) :
    Except StoreErr Unit × FS × List Access :=
  match fs.lookupFile srcPath with
  | none => (.error (.notExist srcPath), fs, [.readF srcPath])
  | some content =>
    match GetAccountDir env account fs with
    | (.error e, fs1, log) => (.error e, fs1, .readF srcPath :: log)
    | (.ok dir, fs1, log) =>
      let dst := dir ++ [SecretsFileName]
      (.ok (), fs1.writeFile dst content, .readF srcPath :: (log ++ [.writeF dst]))

/-- Errors returned by Registry.Resolve, by cause. -/
inductive RegErr where
  | listFailed : StoreErr → RegErr
  | noAccountsConfigured
  | ambiguousAccount : List String → RegErr
  | authFailed : String → RegErr
  | servicesFailed : String → RegErr
deriving DecidableEq, Repr

/-- Render a Go-style []string as fmt's %v does. -/
def goStringSlice (l : List String) : String :=
  "[" ++ String.intercalate " " l ++ "]"

/-- The message texts Resolve attaches to its errors (fmt.Errorf format
strings from registry.go). -/
def regErrMessage : RegErr → String
  | .listFailed _ => "failed to list accounts"
  | .noAccountsConfigured =>
      "no accounts configured; run: go-google-mcp auth login --account <email> --secrets <path>"
  | .ambiguousAccount l =>
      "multiple accounts available, please specify 'account' parameter; available: " ++
        goStringSlice l
  | .authFailed a => "auth for account " ++ a
  | .servicesFailed a => "services for account " ++ a

/-- registry.Registry: the account map (ServiceSets named by allocation
ids, standing for pointers), the scopes, the legacy ServiceSet pointer
(none models a nil pointer / unset field) and the mode flag. -/
structure Registry where
  accounts : List (String × Nat)
  scopes : List String
  legacy : Option Nat
  multiAccount : Bool
deriving DecidableEq, Repr

/-- registry.NewLegacyRegistry: wrap a single pre-built ServiceSet. -/
def NewLegacyRegistry (ss : Option Nat) : Registry :=
  { accounts := [], scopes := [], legacy := ss, multiAccount := false }

/-- registry.NewMultiAccountRegistry: empty account map, lazy
construction per account. -/
def NewMultiAccountRegistry (scopes : List String) : Registry :=
  { accounts := [], scopes := scopes, legacy := none, multiAccount := true }

/-- Go map lookup on the modelled account map. -/
def lookupAccount (m : List (String × Nat)) (a : String) : Option Nat :=
  (m.find? (fun e => e.1 = a)).map (·.2)

/-- The external steps of Resolve, abstracted to their success: whether
auth.GetClientOptionsForAccount succeeds for an account, and whether
NewServiceSet succeeds with the resulting options. -/
structure Oracle where
  authOk : String → Bool
  buildOk : String → Bool

/-- The registry together with the allocator for fresh ServiceSet ids
and the count of NewServiceSet invocations performed so far. -/
structure RegState where
  reg : Registry
  nextId : Nat
  builds : Nat
deriving DecidableEq, Repr

/-- The body of Resolve that runs under the registry mutex (registry.go
lines 149-167): cache lookup, credential loading, ServiceSet
construction and insertion. -/
def resolveLocked (o : Oracle) (s : RegState) (account : String) :
    Except RegErr (Option Nat) × RegState :=
  match lookupAccount s.reg.accounts account with
  | some ss => (.ok (some ss), s)
  | none =>
    if o.authOk account then
      -- NewServiceSet is invoked here, whether or not it succeeds.
      let s1 : RegState := { s with builds := s.builds + 1 }
      if o.buildOk account then
        let id := s1.nextId
        (.ok (some id),
          { reg := { s1.reg with accounts := (account, id) :: s1.reg.accounts },
            nextId := id + 1, builds := s1.builds })
      else (.error (.servicesFailed account), s1)
    else (.error (.authFailed account), s)

/-- registry.Registry.Resolve: legacy mode returns the fixed ServiceSet;
multi-account mode resolves an empty account via ListAccounts and then
runs the locked cache-or-construct body. -/
def Resolve (o : Oracle) (env : Env) (s : RegState) (fs : FS) (account : String) :
    Except RegErr (Option Nat) × RegState × FS :=
  if s.reg.multiAccount = false then (.ok s.reg.legacy, s, fs)
  else if account = "" then
    match ListAccounts env fs with
    | (.error e, fs1, _) => (.error (.listFailed e), s, fs1)
    | (.ok accounts, fs1, _) =>
      match accounts with
      | [] => (.error .noAccountsConfigured, s, fs1)
      | [a] =>
        match resolveLocked o s a with
        | (r, s1) => (r, s1, fs1)
      | _ => (.error (.ambiguousAccount accounts), s, fs1)
  else
    match resolveLocked o s account with
    | (r, s1) => (r, s1, fs)

/-- The flag names the CLI auth login subcommand defines (main.go
handleAuthCommand: only --secrets). -/
def authLoginFlags : List String := ["secrets"]

/-- Which of the three select branches in Login fires first: an
authorization code arrives on the callback, the listener goroutine
reports an error, or the caller-supplied context is done. -/
inductive LoginEvent where
  | codeReceived : String → LoginEvent
  | serverErr : String → LoginEvent
  | ctxCancelled : String → LoginEvent
deriving DecidableEq, Repr

/-- Errors Login can return from the select onwards. -/
inductive LoginErr where
  | serverFailed : String → LoginErr
  | cancelled : String → LoginErr
  | exchangeFailed : String → LoginErr
  | saveFailed : StoreErr → LoginErr
deriving DecidableEq, Repr

deriving instance DecidableEq for Except

/-- The outcome of Login from the select onwards: the returned value,
the filesystem afterwards, and whether server.Shutdown was called. -/
structure LoginResult where
  outcome : Except LoginErr Unit
  fs : FS
  serverShutdown : Bool
deriving DecidableEq, Repr

/-- auth.Login from the select over the code/error/cancellation channels
to the end (login.go lines 79-103): on a code, exchange it, save the
token via SaveToken and shut the server down; every other path returns
an error without writing a token and without calling server.Shutdown. -/
def loginAfterListen (env : Env) (fs : FS) (ev : LoginEvent)
    (exchange : String → Except String Token) : LoginResult :=
  match ev with
  | .serverErr m => { outcome := .error (.serverFailed m), fs := fs, serverShutdown := false }
  | .ctxCancelled m => { outcome := .error (.cancelled m), fs := fs, serverShutdown := false }
  | .codeReceived code =>
    match exchange code with
    | .error m => { outcome := .error (.exchangeFailed m), fs := fs, serverShutdown := false }
    | .ok token =>
      match SaveToken env token fs with
      | (.error e, fs1, _) =>
          { outcome := .error (.saveFailed e), fs := fs1, serverShutdown := false }
      | (.ok _, fs1, _) => { outcome := .ok (), fs := fs1, serverShutdown := true }

/-- Test fixture: environment with the config-dir override set. -/
def envW : Env := ⟨"cfg", "", none⟩

/-- Test fixture: a concrete token. -/
def tokW : Token := ⟨"at", "Bearer", "rt", 100⟩

/-- Test fixture: the empty filesystem. -/
def fsEmpty : FS := ⟨[], []⟩

/-- Test fixture: a config area with one configured account. -/
def fsOneAccount : FS :=
  ⟨[["cfg"], ["cfg", "accounts"], ["cfg", "accounts", "a"]],
   [(["cfg", "accounts", "a", "token.json"], .tokenJSON tokW)]⟩

/-- Test fixture: a config area with two configured accounts. -/
def fsTwoAccounts : FS :=
  ⟨[["cfg"], ["cfg", "accounts"], ["cfg", "accounts", "a"], ["cfg", "accounts", "b"]],
   [(["cfg", "accounts", "a", "token.json"], .tokenJSON tokW),
    (["cfg", "accounts", "b", "token.json"], .tokenJSON tokW)]⟩

/-- Test fixture: an oracle whose auth and construction steps always
succeed. -/
def oracleAll : Oracle := ⟨fun _ => true, fun _ => true⟩

/-- Test fixture: an oracle whose auth step always fails. -/
def oracleNoAuth : Oracle := ⟨fun _ => false, fun _ => true⟩

/-- Test fixture: a fresh multi-account registry state. -/
def regStateFresh : RegState := ⟨NewMultiAccountRegistry ["scope"], 0, 0⟩

/-- The account name contains one of the substrings the store must
reject: "..", a slash, a backslash, or NUL. -/
def hasForbiddenSubstring (A : String) : Prop :=
  stringsContains A ".." = true ∨ stringsContains A "/" = true ∨
    stringsContains A "\\" = true ∨ stringsContains A "\x00" = true

instance (A : String) : Decidable (hasForbiddenSubstring A) := by
  unfold hasForbiddenSubstring; infer_instance

theorem FS.files_mkdirAll (fs : FS) (p : FsPath) : (fs.mkdirAll p).files = fs.files := rfl

theorem FS.dirs_writeFile (fs : FS) (p : FsPath) (d : FileData) :
    (fs.writeFile p d).dirs = fs.dirs := rfl

theorem FS.lookupFile_mkdirAll (fs : FS) (p q : FsPath) :
    (fs.mkdirAll p).lookupFile q = fs.lookupFile q := rfl

theorem find?_filter_of_discarded {α : Type} (l : List α) (pred keep : α → Bool)
    (h : ∀ x ∈ l, keep x = false → pred x = false) :
    (l.filter keep).find? pred = l.find? pred := by
  induction l with
  | nil => rfl
  | cons x xs ih =>
    have ih' := ih (fun y hy => h y (List.mem_cons_of_mem x hy))
    by_cases hk : keep x = true
    · rw [List.filter_cons_of_pos hk]
      by_cases hp : pred x = true
      · rw [List.find?_cons_of_pos _ hp, List.find?_cons_of_pos _ hp]
      · rw [List.find?_cons_of_neg _ (by simpa using hp),
          List.find?_cons_of_neg _ (by simpa using hp), ih']
    · have hk' : keep x = false := by simpa using hk
      rw [List.filter_cons_of_neg (by simpa using hk),
        List.find?_cons_of_neg _ (by simp [h x (List.mem_cons_self x xs) hk']), ih']

theorem filterMap_filter_of_discarded {α β : Type} (l : List α) (f : α → Option β)
    (keep : α → Bool) (h : ∀ x ∈ l, keep x = false → f x = none) :
    (l.filter keep).filterMap f = l.filterMap f := by
  induction l with
  | nil => rfl
  | cons x xs ih =>
    have ih' := ih (fun y hy => h y (List.mem_cons_of_mem x hy))
    by_cases hk : keep x = true
    · rw [List.filter_cons_of_pos hk, List.filterMap_cons, List.filterMap_cons, ih']
    · have hk' : keep x = false := by simpa using hk
      rw [List.filter_cons_of_neg (by simpa using hk), List.filterMap_cons,
        h x (List.mem_cons_self x xs) hk', ih']

theorem FS.lookupFile_writeFile_self (fs : FS) (p : FsPath) (d : FileData) :
    (fs.writeFile p d).lookupFile p = some d := by
  simp [FS.lookupFile, FS.writeFile, List.find?_cons_of_pos]

theorem FS.lookupFile_writeFile_ne (fs : FS) (p q : FsPath) (d : FileData) (h : q ≠ p) :
    (fs.writeFile p d).lookupFile q = fs.lookupFile q := by
  simp only [FS.lookupFile, FS.writeFile]
  rw [List.find?_cons_of_neg _ (by simpa using Ne.symm h)]
  rw [find?_filter_of_discarded]
  intro x _ hx
  have hx' : x.1 = p := by simpa using hx
  show decide (x.1 = q) = false
  rw [hx']
  simpa using Ne.symm h

theorem length_le_of_mem_pathAncestors (p q : FsPath) (h : q ∈ pathAncestors p) :
    q.length ≤ p.length := by
  simp only [pathAncestors, List.mem_map, List.mem_range] at h
  obtain ⟨i, _, rfl⟩ := h
  simpa using List.length_take_le (i + 1) p

theorem mem_mkdirAll_dirs_iff (fs : FS) (p q : FsPath) (h : p.length < q.length) :
    q ∈ (fs.mkdirAll p).dirs ↔ q ∈ fs.dirs := by
  simp only [FS.mkdirAll, List.mem_append, List.mem_filter]
  constructor
  · rintro (⟨hq, _⟩ | hq)
    · exact absurd (length_le_of_mem_pathAncestors p q hq) (by omega)
    · exact hq
  · exact fun hq => Or.inr hq

theorem pathAncestors_mem_mkdirAll (fs : FS) (p q : FsPath) (h : q ∈ pathAncestors p) :
    q ∈ (fs.mkdirAll p).dirs := by
  simp only [FS.mkdirAll, List.mem_append, List.mem_filter]
  by_cases hq : q ∈ fs.dirs
  · exact Or.inr hq
  · exact Or.inl ⟨h, by simpa using hq⟩

theorem mkdirAll_eq_of_ancestors_mem (fs : FS) (p : FsPath)
    (h : ∀ q ∈ pathAncestors p, q ∈ fs.dirs) : fs.mkdirAll p = fs := by
  cases fs with
  | mk dirs files =>
    simp only [FS.mkdirAll]
    congr 1
    have : (pathAncestors p).filter (fun q => !(decide (q ∈ dirs))) = [] := by
      rw [List.filter_eq_nil]
      intro q hq
      simpa using h q hq
    simp [this]

theorem mkdirAll_mkdirAll_self (fs : FS) (p : FsPath) :
    (fs.mkdirAll p).mkdirAll p = fs.mkdirAll p :=
  mkdirAll_eq_of_ancestors_mem _ p (fun q hq => pathAncestors_mem_mkdirAll fs p q hq)

theorem take_drop_head_eq (d p : FsPath) (n : String) (h1 : d.length = p.length + 1)
    (h2 : d.take p.length = p) (h3 : (d.drop p.length).head? = some n) : d = p ++ [n] := by
  have hlen : (d.drop p.length).length = 1 := by
    rw [List.length_drop, h1]; omega
  have h4 : d.drop p.length = [n] := by
    cases hd : d.drop p.length with
    | nil => rw [hd] at hlen; simp at hlen
    | cons x t =>
      cases t with
      | nil =>
        rw [hd] at h3
        simp only [List.head?_cons, Option.some.injEq] at h3
        rw [h3]
      | cons y s => rw [hd] at hlen; simp at hlen
  calc d = d.take p.length ++ d.drop p.length := (List.take_append_drop _ _).symm
    _ = p ++ [n] := by rw [h2, h4]

theorem mem_childDirNames_iff (fs : FS) (p : FsPath) (n : String) :
    n ∈ fs.childDirNames p ↔ (p ++ [n]) ∈ fs.dirs := by
  simp only [FS.childDirNames, List.mem_dedup, List.mem_filterMap]
  constructor
  · rintro ⟨d, hd, hif⟩
    split at hif
    · rename_i hcond
      rw [take_drop_head_eq d p n hcond.1 hcond.2 hif] at hd
      exact hd
    · exact absurd hif (by simp)
  · intro hmem
    refine ⟨p ++ [n], hmem, ?_⟩
    rw [if_pos ⟨by simp, by simpa using List.take_left p [n]⟩]
    have : (p ++ [n]).drop p.length = [n] := by simpa using List.drop_left p [n]
    rw [this]
    rfl

theorem any_congr_of_mem {α : Type} {l : List α} {p q : α → Bool}
    (h : ∀ x ∈ l, p x = q x) : l.any p = l.any q := by
  induction l with
  | nil => rfl
  | cons x xs ih =>
    simp only [List.any_cons, h x (List.mem_cons_self x xs),
      ih (fun y hy => h y (List.mem_cons_of_mem x hy))]

theorem filterMap_congr_of_mem {α β : Type} {l : List α} {f g : α → Option β}
    (h : ∀ x ∈ l, f x = g x) : l.filterMap f = l.filterMap g := by
  induction l with
  | nil => rfl
  | cons x xs ih =>
    rw [List.filterMap_cons, List.filterMap_cons, h x (List.mem_cons_self x xs),
      ih (fun y hy => h y (List.mem_cons_of_mem x hy))]

theorem any_map_comp {α β : Type} (l : List α) (g : α → β) (p : β → Bool) :
    (l.map g).any p = l.any (fun x => p (g x)) := by
  induction l with
  | nil => rfl
  | cons x xs ih => simp only [List.map_cons, List.any_cons, ih]

theorem filterMap_map_comp {α β γ : Type} (l : List α) (g : α → β) (p : β → Option γ) :
    (l.map g).filterMap p = l.filterMap (fun x => p (g x)) := by
  induction l with
  | nil => rfl
  | cons x xs ih => simp only [List.map_cons, List.filterMap_cons, ih]

theorem childEntries_any_isDir (g : FS) (p : FsPath) (f : String → Bool) :
    ((g.childEntries p).any (fun e => e.isDir && f e.name)) = true ↔
      ∃ n, (p ++ [n]) ∈ g.dirs ∧ f n = true := by
  have h1 : ((g.childDirNames p).map (fun n => (⟨n, true⟩ : DirEntry))).any
      (fun e => e.isDir && f e.name) = (g.childDirNames p).any f := by
    rw [any_map_comp]
    exact any_congr_of_mem (fun x _ => by simp)
  have h2 : (((g.childFileNames p).filter
        (fun n => !(decide (n ∈ g.childDirNames p)))).map (fun n => (⟨n, false⟩ : DirEntry))).any
      (fun e => e.isDir && f e.name) = false := by
    rw [any_map_comp]
    simp
  rw [FS.childEntries, List.any_append, h1, h2, Bool.or_false]
  simp only [List.any_eq_true]
  constructor
  · rintro ⟨n, hn, hf⟩
    exact ⟨n, (mem_childDirNames_iff g p n).mp hn, hf⟩
  · rintro ⟨n, hn, hf⟩
    exact ⟨n, (mem_childDirNames_iff g p n).mpr hn, hf⟩

theorem childDirNames_writeFile (g : FS) (tp : FsPath) (d : FileData) (p : FsPath) :
    (g.writeFile tp d).childDirNames p = g.childDirNames p := rfl

theorem childFileNames_writeFile_long (g : FS) (tp : FsPath) (d : FileData) (p : FsPath)
    (h : tp.length ≠ p.length + 1) :
    (g.writeFile tp d).childFileNames p = g.childFileNames p := by
  simp only [FS.childFileNames, FS.writeFile]
  congr 1
  rw [List.filterMap_cons]
  have h1 : (if tp.length = p.length + 1 ∧ tp.take p.length = p
      then (tp.drop p.length).head? else none) = none := by
    rw [if_neg (fun hc => h hc.1)]
  rw [h1]
  rw [filterMap_filter_of_discarded]
  intro x _ hx
  have hx' : x.1 = tp := by simpa using hx
  rw [if_neg (fun hc => h (hx' ▸ hc.1))]

theorem childEntries_writeFile_long (g : FS) (tp : FsPath) (d : FileData) (p : FsPath)
    (h : tp.length ≠ p.length + 1) :
    (g.writeFile tp d).childEntries p = g.childEntries p := by
  simp only [FS.childEntries, childDirNames_writeFile, childFileNames_writeFile_long g tp d p h]

theorem statOk_writeFile_ne (g : FS) (tp : FsPath) (d : FileData) (q : FsPath) (h : q ≠ tp) :
    (g.writeFile tp d).statOk q = g.statOk q := by
  simp only [FS.statOk, FS.lookupFile_writeFile_ne g tp q d h, FS.dirs_writeFile]

theorem statOk_mkdirAll_long (fs : FS) (p q : FsPath) (h : p.length < q.length) :
    (fs.mkdirAll p).statOk q = fs.statOk q := by
  simp only [FS.statOk, FS.lookupFile_mkdirAll]
  congr 1
  exact decide_eq_decide.mpr (mem_mkdirAll_dirs_iff fs p q h)

theorem isMultiAccount_unfold (env : Env) (fs : FS) (cfg : FsPath)
    (hcfg : configRoot env = .ok cfg) :
    (IsMultiAccount env fs).1 = .ok (
      if (cfg ++ [AccountsDirName]) ∈ (fs.mkdirAll cfg).dirs then
        ((fs.mkdirAll cfg).childEntries (cfg ++ [AccountsDirName])).any (fun e =>
          e.isDir && (fs.mkdirAll cfg).statOk (cfg ++ [AccountsDirName] ++ [e.name, TokenFileName]))
      else false) := by
  by_cases hmem : (cfg ++ [AccountsDirName]) ∈ (fs.mkdirAll cfg).dirs
  · simp only [IsMultiAccount, GetConfigDir, hcfg, FS.readDir, if_pos hmem]
  · simp only [IsMultiAccount, GetConfigDir, hcfg, FS.readDir, if_neg hmem]

theorem listAccounts_unfold (env : Env) (fs : FS) (cfg : FsPath)
    (hcfg : configRoot env = .ok cfg) :
    (ListAccounts env fs).1 = .ok (
      if (cfg ++ [AccountsDirName]) ∈ (fs.mkdirAll cfg).dirs then
        ((fs.mkdirAll cfg).childEntries (cfg ++ [AccountsDirName])).filterMap (fun e =>
          if e.isDir && (fs.mkdirAll cfg).statOk (cfg ++ [AccountsDirName] ++ [e.name, TokenFileName])
          then some e.name else none)
      else []) := by
  by_cases hmem : (cfg ++ [AccountsDirName]) ∈ (fs.mkdirAll cfg).dirs
  · simp only [ListAccounts, GetConfigDir, hcfg, FS.readDir, if_pos hmem]
  · simp only [ListAccounts, GetConfigDir, hcfg, FS.readDir, if_neg hmem]

theorem ne_of_length_ne {p q : FsPath} (h : p.length ≠ q.length) : p ≠ q :=
  fun hpq => h (congrArg List.length hpq)

theorem mkdirAll_writeFile_mkdirAll (fs : FS) (cfg tp : FsPath) (d : FileData) :
    ((fs.mkdirAll cfg).writeFile tp d).mkdirAll cfg = (fs.mkdirAll cfg).writeFile tp d :=
  mkdirAll_eq_of_ancestors_mem _ cfg (fun q hq => pathAncestors_mem_mkdirAll fs cfg q hq)

theorem isMultiAccount_root_write (env : Env) (fs : FS) (cfg : FsPath) (d : FileData)
    (hcfg : configRoot env = .ok cfg) :
    (IsMultiAccount env ((fs.mkdirAll cfg).writeFile (cfg ++ [TokenFileName]) d)).1 =
      (IsMultiAccount env fs).1 := by
  rw [isMultiAccount_unfold env _ cfg hcfg, isMultiAccount_unfold env fs cfg hcfg]
  rw [mkdirAll_writeFile_mkdirAll]
  rw [FS.dirs_writeFile]
  by_cases hmem : (cfg ++ [AccountsDirName]) ∈ (fs.mkdirAll cfg).dirs
  · rw [if_pos hmem, if_pos hmem]
    congr 1
    rw [childEntries_writeFile_long _ _ _ _ (by simp)]
    apply any_congr_of_mem
    intro e _
    rw [statOk_writeFile_ne _ _ _ _ (ne_of_length_ne (by simp))]
  · rw [if_neg hmem, if_neg hmem]

theorem listAccounts_root_write (env : Env) (fs : FS) (cfg : FsPath) (d : FileData)
    (hcfg : configRoot env = .ok cfg) :
    (ListAccounts env ((fs.mkdirAll cfg).writeFile (cfg ++ [TokenFileName]) d)).1 =
      (ListAccounts env fs).1 := by
  rw [listAccounts_unfold env _ cfg hcfg, listAccounts_unfold env fs cfg hcfg]
  rw [mkdirAll_writeFile_mkdirAll]
  rw [FS.dirs_writeFile]
  by_cases hmem : (cfg ++ [AccountsDirName]) ∈ (fs.mkdirAll cfg).dirs
  · rw [if_pos hmem, if_pos hmem]
    congr 1
    rw [childEntries_writeFile_long _ _ _ _ (by simp)]
    apply filterMap_congr_of_mem
    intro e _
    rw [statOk_writeFile_ne _ _ _ _ (ne_of_length_ne (by simp))]
  · rw [if_neg hmem, if_neg hmem]

theorem lookupAccount_cons_self (m : List (String × Nat)) (a : String) (i : Nat) :
    lookupAccount ((a, i) :: m) a = some i := by
  simp [lookupAccount, List.find?_cons_of_pos]

theorem resolve_cache_hit (o : Oracle) (env : Env) (s : RegState) (fs : FS) (a : String) (i : Nat)
    (hm : s.reg.multiAccount = true) (ha : a ≠ "")
    (hi : lookupAccount s.reg.accounts a = some i) :
    Resolve o env s fs a = (.ok (some i), s, fs) := by
  simp [Resolve, hm, ha, resolveLocked, hi]

theorem resolve_construct_success (o : Oracle) (env : Env) (s : RegState) (fs : FS) (a : String)
    (hm : s.reg.multiAccount = true) (ha : a ≠ "")
    (hmiss : lookupAccount s.reg.accounts a = none)
    (hauth : o.authOk a = true) (hbuild : o.buildOk a = true) :
    Resolve o env s fs a = (.ok (some s.nextId),
      { reg := { s.reg with accounts := (a, s.nextId) :: s.reg.accounts },
        nextId := s.nextId + 1, builds := s.builds + 1 }, fs) := by
  simp [Resolve, hm, ha, resolveLocked, hmiss, hauth, hbuild]

theorem resolve_auth_failed (o : Oracle) (env : Env) (s : RegState) (fs : FS) (a : String)
    (hm : s.reg.multiAccount = true) (ha : a ≠ "")
    (hmiss : lookupAccount s.reg.accounts a = none)
    (hauth : o.authOk a = false) :
    Resolve o env s fs a = (.error (.authFailed a), s, fs) := by
  simp [Resolve, hm, ha, resolveLocked, hmiss, hauth]

theorem resolve_build_failed (o : Oracle) (env : Env) (s : RegState) (fs : FS) (a : String)
    (hm : s.reg.multiAccount = true) (ha : a ≠ "")
    (hmiss : lookupAccount s.reg.accounts a = none)
    (hauth : o.authOk a = true) (hbuild : o.buildOk a = false) :
    Resolve o env s fs a = (.error (.servicesFailed a), { s with builds := s.builds + 1 }, fs) := by
  simp [Resolve, hm, ha, resolveLocked, hmiss, hauth, hbuild]

theorem validateAccountName_of_forbidden (A : String) (h : hasForbiddenSubstring A) :
    validateAccountName A = .error (.invalidName A) := by
  have hne : A ≠ "" := by
    rintro rfl
    rcases h with h | h | h | h <;> revert h <;> decide
  have hcond : (stringsContains A ".." || stringsContains A "/" ||
      stringsContains A "\\" || stringsContains A "\x00") = true := by
    rcases h with h | h | h | h <;> simp [h]
  simp [validateAccountName, hne, hcond]

/-- C1: in multi-account mode, for a valid account A not yet cached,
two sequential Resolve(A) calls that succeed return the identical
ServiceSet (the same allocation id), NewServiceSet runs exactly once
across both calls, and once an entry for A is in the registry map every
later Resolve(A) returns it unchanged without constructing again. -/
theorem registry_resolve_constructs_once (o : Oracle) (env : Env) (s : RegState) (fs : FS)
    (A : String) (hm : s.reg.multiAccount = true) (hA : A ≠ "")
    (hmiss : lookupAccount s.reg.accounts A = none)
    (hauth : o.authOk A = true) (hbuild : o.buildOk A = true) :
    (∃ id,
      (Resolve o env s fs A).1 = .ok (some id) ∧
      (Resolve o env (Resolve o env s fs A).2.1 (Resolve o env s fs A).2.2 A).1 =
        .ok (some id) ∧
      (Resolve o env (Resolve o env s fs A).2.1 (Resolve o env s fs A).2.2 A).2.1.builds =
        s.builds + 1) ∧
    (∀ (s2 : RegState) (fs2 : FS) (i : Nat), s2.reg.multiAccount = true →
      lookupAccount s2.reg.accounts A = some i →
      Resolve o env s2 fs2 A = (.ok (some i), s2, fs2)) := by
  have h1 := resolve_construct_success o env s fs A hm hA hmiss hauth hbuild
  have hcached : ∀ (s2 : RegState) (fs2 : FS) (i : Nat), s2.reg.multiAccount = true →
      lookupAccount s2.reg.accounts A = some i →
      Resolve o env s2 fs2 A = (.ok (some i), s2, fs2) :=
    fun s2 fs2 i hm2 hi2 => resolve_cache_hit o env s2 fs2 A i hm2 hA hi2
  refine ⟨⟨s.nextId, ?_, ?_, ?_⟩, hcached⟩
  · rw [h1]
  · simp only [h1]
    rw [hcached _ _ s.nextId (by simpa using hm)
      (lookupAccount_cons_self s.reg.accounts A s.nextId)]
  · simp only [h1]
    rw [hcached _ _ s.nextId (by simpa using hm)
      (lookupAccount_cons_self s.reg.accounts A s.nextId)]

/-- C2: in multi-account mode, when the credential-loading step or the
ServiceSet-construction step fails for an uncached account A, Resolve
returns an error, inserts nothing into the account map, leaves the
filesystem untouched, and a later Resolve(A) whose steps succeed
performs the construction (it was not blocked by a cached failure). -/
theorem registry_failed_resolve_not_cached (o : Oracle) (env : Env) (s : RegState) (fs : FS)
    (A : String) (hm : s.reg.multiAccount = true) (hA : A ≠ "")
    (hmiss : lookupAccount s.reg.accounts A = none)
    (hfail : o.authOk A = false ∨ o.buildOk A = false) :
    (∃ e, (Resolve o env s fs A).1 = .error e) ∧
    (Resolve o env s fs A).2.1.reg.accounts = s.reg.accounts ∧
    (Resolve o env s fs A).2.2 = fs ∧
    (∀ o2 : Oracle, o2.authOk A = true → o2.buildOk A = true →
      (Resolve o2 env (Resolve o env s fs A).2.1 fs A).1 =
        .ok (some (Resolve o env s fs A).2.1.nextId) ∧
      (Resolve o2 env (Resolve o env s fs A).2.1 fs A).2.1.builds =
        (Resolve o env s fs A).2.1.builds + 1) := by
  by_cases hao : o.authOk A = true
  · have hbo : o.buildOk A = false := by
      rcases hfail with h | h
      · rw [hao] at h; exact absurd h (by simp)
      · exact h
    have h1 := resolve_build_failed o env s fs A hm hA hmiss hao hbo
    refine ⟨⟨_, by rw [h1]⟩, by rw [h1], by rw [h1], ?_⟩
    intro o2 h2a h2b
    have h2 := resolve_construct_success o2 env { s with builds := s.builds + 1 } fs A
      (by simpa using hm) hA (by simpa using hmiss) h2a h2b
    rw [h1]
    exact ⟨by rw [h2], by rw [h2]⟩
  · have hao2 : o.authOk A = false := by simpa using hao
    have h1 := resolve_auth_failed o env s fs A hm hA hmiss hao2
    refine ⟨⟨_, by rw [h1]⟩, by rw [h1], by rw [h1], ?_⟩
    intro o2 h2a h2b
    have h2 := resolve_construct_success o2 env s fs A hm hA hmiss h2a h2b
    rw [h1]
    exact ⟨by rw [h2], by rw [h2]⟩

/-- C3: multi-account Resolve with the empty account: with zero
configured accounts it fails with the no-accounts error, with exactly
one configured account X it returns what Resolve(X) returns (same
result, same registry state), and with two or more it fails with the
ambiguous-account error carrying exactly the ListAccounts result. -/
theorem registry_resolve_empty_cases (o : Oracle) (env : Env) (s : RegState) (fs fs1 : FS)
    (l : List String) (log : List Access) (hm : s.reg.multiAccount = true)
    (hlist : ListAccounts env fs = (.ok l, fs1, log)) :
    (l = [] → Resolve o env s fs "" = (.error .noAccountsConfigured, s, fs1)) ∧
    (∀ X, X ≠ "" → l = [X] →
      (Resolve o env s fs "").1 = (Resolve o env s fs X).1 ∧
      (Resolve o env s fs "").2.1 = (Resolve o env s fs X).2.1) ∧
    (2 ≤ l.length → Resolve o env s fs "" = (.error (.ambiguousAccount l), s, fs1)) := by
  refine ⟨?_, ?_, ?_⟩
  · rintro rfl
    simp [Resolve, hm, hlist]
  · rintro X hX rfl
    have hres : Resolve o env s fs "" = ((resolveLocked o s X).1, (resolveLocked o s X).2, fs1) := by
      simp [Resolve, hm, hlist]
    have hres2 : Resolve o env s fs X = ((resolveLocked o s X).1, (resolveLocked o s X).2, fs) := by
      simp [Resolve, hm, hX]
    rw [hres, hres2]
    exact ⟨rfl, rfl⟩
  · intro hlen
    match l, hlist with
    | a :: b :: t, hlist => simp [Resolve, hm, hlist]

/-- C4: a legacy-mode registry's Resolve returns the single pre-built
ServiceSet it was constructed with, for every account string including
the empty one, and never returns an error. -/
theorem registry_legacy_resolve_constant (o : Oracle) (env : Env) (fs : FS) (ss : Option Nat)
    (n b : Nat) (A : String) :
    Resolve o env ⟨NewLegacyRegistry ss, n, b⟩ fs A = (.ok ss, ⟨NewLegacyRegistry ss, n, b⟩, fs) :=
  rfl

/-- C1 witness: instantiated at a fresh registry, the always-succeeding
oracle and account "a". -/
theorem registry_resolve_constructs_once_witness :
    (∃ id,
      (Resolve oracleAll envW regStateFresh fsEmpty "a").1 = .ok (some id) ∧
      (Resolve oracleAll envW (Resolve oracleAll envW regStateFresh fsEmpty "a").2.1
        (Resolve oracleAll envW regStateFresh fsEmpty "a").2.2 "a").1 = .ok (some id) ∧
      (Resolve oracleAll envW (Resolve oracleAll envW regStateFresh fsEmpty "a").2.1
        (Resolve oracleAll envW regStateFresh fsEmpty "a").2.2 "a").2.1.builds =
        regStateFresh.builds + 1) ∧
    (∀ (s2 : RegState) (fs2 : FS) (i : Nat), s2.reg.multiAccount = true →
      lookupAccount s2.reg.accounts "a" = some i →
      Resolve oracleAll envW s2 fs2 "a" = (.ok (some i), s2, fs2)) :=
  registry_resolve_constructs_once oracleAll envW regStateFresh fsEmpty "a"
    (by decide) (by decide) (by decide) (by decide) (by decide)

/-- C2 witness: instantiated at a fresh registry and an oracle whose
auth step fails. -/
theorem registry_failed_resolve_not_cached_witness :
    (∃ e, (Resolve oracleNoAuth envW regStateFresh fsEmpty "a").1 = .error e) ∧
    (Resolve oracleNoAuth envW regStateFresh fsEmpty "a").2.1.reg.accounts =
      regStateFresh.reg.accounts ∧
    (Resolve oracleNoAuth envW regStateFresh fsEmpty "a").2.2 = fsEmpty ∧
    (∀ o2 : Oracle, o2.authOk "a" = true → o2.buildOk "a" = true →
      (Resolve o2 envW (Resolve oracleNoAuth envW regStateFresh fsEmpty "a").2.1 fsEmpty "a").1 =
        .ok (some (Resolve oracleNoAuth envW regStateFresh fsEmpty "a").2.1.nextId) ∧
      (Resolve o2 envW (Resolve oracleNoAuth envW regStateFresh fsEmpty "a").2.1
          fsEmpty "a").2.1.builds =
        (Resolve oracleNoAuth envW regStateFresh fsEmpty "a").2.1.builds + 1) :=
  registry_failed_resolve_not_cached oracleNoAuth envW regStateFresh fsEmpty "a"
    (by decide) (by decide) (by decide) (Or.inl (by decide))

/-- C3 witness: two configured accounts make the empty-account Resolve
fail with the ambiguous-account error listing both. -/
theorem registry_resolve_empty_cases_witness :
    Resolve oracleAll envW regStateFresh fsTwoAccounts "" =
      (.error (.ambiguousAccount ["a", "b"]), regStateFresh, fsTwoAccounts) :=
  (registry_resolve_empty_cases oracleAll envW regStateFresh fsTwoAccounts fsTwoAccounts
    ["a", "b"] [.mkdir ["cfg"], .readDirA ["cfg", "accounts"]] (by decide) (by decide)).2.2
    (by decide)

/-- C5 counterexample: SaveSecretsForAccount does not reject a
path-traversal account name before any filesystem access.  With an
unreadable source path it returns the read error instead of a
validation error, and with a readable source path it performs a read
of the source file before the validation failure. -/
theorem store_validation_claim_cex :
    ¬ ((SaveSecretsForAccount envW "../evil" ["missing.json"] fsEmpty).1 =
        .error (.invalidName "../evil")) ∧
    (SaveSecretsForAccount envW "../evil" ["missing.json"] fsEmpty).1 =
      .error (.notExist ["missing.json"]) ∧
    (SaveSecretsForAccount envW "../evil" ["s"]
      ⟨[], [(["s"], .bytes "secret")]⟩).2.2 = [.readF ["s"]] := by decide

/-- C5 amended: for every account name containing "..", a slash, a
backslash or NUL, GetAccountDir, SaveTokenForAccount,
LoadTokenForAccount and LoadSecretsForAccount reject it with a
validation error before any filesystem access (empty access log,
filesystem unchanged); SaveSecretsForAccount validates before touching
any path derived from the account name, but first reads the
caller-supplied source file, so it performs that one read before the
rejection and returns the read error instead when the source is
unreadable. -/
theorem store_path_traversal_rejected (env : Env) (A : String) (T : Token) (fs : FS)
    (h : hasForbiddenSubstring A) :
    GetAccountDir env A fs = (.error (.invalidName A), fs, []) ∧
    SaveTokenForAccount env A T fs = (.error (.invalidName A), fs, []) ∧
    LoadTokenForAccount env A fs = (.error (.invalidName A), fs, []) ∧
    LoadSecretsForAccount env A fs = (.error (.invalidName A), fs, []) ∧
    (∀ src : FsPath,
      (fs.lookupFile src = none →
        SaveSecretsForAccount env A src fs = (.error (.notExist src), fs, [.readF src])) ∧
      (∀ d, fs.lookupFile src = some d →
        SaveSecretsForAccount env A src fs = (.error (.invalidName A), fs, [.readF src]))) := by
  have hv := validateAccountName_of_forbidden A h
  refine ⟨?_, ?_, ?_, ?_, ?_⟩
  · simp [GetAccountDir, hv]
  · simp [SaveTokenForAccount, GetAccountDir, hv]
  · simp [LoadTokenForAccount, GetAccountDir, hv]
  · simp [LoadSecretsForAccount, GetAccountDir, hv]
  · intro src
    constructor
    · intro hs
      simp [SaveSecretsForAccount, GetAccountDir, hv, hs]
    · intro d hs
      simp [SaveSecretsForAccount, GetAccountDir, hv, hs]

/-- C5 witness: the amended statement instantiated at the traversal
name "../evil". -/
theorem store_path_traversal_rejected_witness :
    GetAccountDir envW "../evil" fsEmpty = (.error (.invalidName "../evil"), fsEmpty, []) ∧
    SaveTokenForAccount envW "../evil" tokW fsEmpty =
      (.error (.invalidName "../evil"), fsEmpty, []) ∧
    LoadTokenForAccount envW "../evil" fsEmpty =
      (.error (.invalidName "../evil"), fsEmpty, []) ∧
    LoadSecretsForAccount envW "../evil" fsEmpty =
      (.error (.invalidName "../evil"), fsEmpty, []) ∧
    (∀ src : FsPath,
      (fsEmpty.lookupFile src = none →
        SaveSecretsForAccount envW "../evil" src fsEmpty =
          (.error (.notExist src), fsEmpty, [.readF src])) ∧
      (∀ d, fsEmpty.lookupFile src = some d →
        SaveSecretsForAccount envW "../evil" src fsEmpty =
          (.error (.invalidName "../evil"), fsEmpty, [.readF src]))) :=
  store_path_traversal_rejected envW "../evil" tokW fsEmpty (by decide)

/-- C6: for a valid account name and a resolvable config root, saving a
token for the account and loading it back succeeds and returns an equal
token. -/
theorem store_token_roundtrip (env : Env) (A : String) (T : Token) (fs : FS) (cfg : FsPath)
    (hA : validateAccountName A = .ok ())
    (hcfg : configRoot env = .ok cfg) :
    (SaveTokenForAccount env A T fs).1 = .ok () ∧
    (LoadTokenForAccount env A (SaveTokenForAccount env A T fs).2.1).1 = .ok T := by
  have h21 : (SaveTokenForAccount env A T fs).2.1 =
      ((fs.mkdirAll cfg).mkdirAll (cfg ++ [AccountsDirName, A])).writeFile
        (cfg ++ [AccountsDirName, A] ++ [TokenFileName]) (.tokenJSON T) := by
    simp [SaveTokenForAccount, GetAccountDir, GetConfigDir, hA, hcfg]
  constructor
  · simp [SaveTokenForAccount, GetAccountDir, GetConfigDir, hA, hcfg]
  · rw [h21]
    simp [LoadTokenForAccount, GetAccountDir, GetConfigDir, hA, hcfg, FS.lookupFile_mkdirAll,
      FS.lookupFile_writeFile_self]

/-- C6 witness: round trip for account "alice" on the empty
filesystem. -/
theorem store_token_roundtrip_witness :
    (SaveTokenForAccount envW "alice" tokW fsEmpty).1 = .ok () ∧
    (LoadTokenForAccount envW "alice" (SaveTokenForAccount envW "alice" tokW fsEmpty).2.1).1 =
      .ok tokW :=
  store_token_roundtrip envW "alice" tokW fsEmpty ["cfg"] (by decide) (by decide)

/-- C7: with a resolvable config root, IsMultiAccount never errors, and
it returns true exactly when the accounts/ directory exists and some
subdirectory of it contains a token file; it returns false when
accounts/ is absent, empty, or no subdirectory has a token file. -/
theorem is_multi_account_iff (env : Env) (fs : FS) (cfg : FsPath)
    (hcfg : configRoot env = .ok cfg) :
    (∃ b, (IsMultiAccount env fs).1 = .ok b) ∧
    ((IsMultiAccount env fs).1 = .ok true ↔
      (cfg ++ [AccountsDirName]) ∈ fs.dirs ∧
      ∃ n, (cfg ++ [AccountsDirName, n]) ∈ fs.dirs ∧
        fs.statOk (cfg ++ [AccountsDirName, n, TokenFileName]) = true) := by
  rw [isMultiAccount_unfold env fs cfg hcfg]
  refine ⟨⟨_, rfl⟩, ?_⟩
  have hlt1 : cfg.length < (cfg ++ [AccountsDirName]).length := by
    simp only [List.length_append, List.length_cons, List.length_nil]
    omega
  by_cases hmem : (cfg ++ [AccountsDirName]) ∈ (fs.mkdirAll cfg).dirs
  · rw [if_pos hmem]
    have hmemf : (cfg ++ [AccountsDirName]) ∈ fs.dirs :=
      (mem_mkdirAll_dirs_iff fs cfg _ hlt1).mp hmem
    simp only [Except.ok.injEq]
    have hiff := childEntries_any_isDir (fs.mkdirAll cfg) (cfg ++ [AccountsDirName])
      (fun n => (fs.mkdirAll cfg).statOk (cfg ++ [AccountsDirName] ++ [n, TokenFileName]))
    constructor
    · intro hany
      obtain ⟨n, hn, hf⟩ := hiff.mp hany
      refine ⟨hmemf, n, ?_, ?_⟩
      · have := (mem_mkdirAll_dirs_iff fs cfg ((cfg ++ [AccountsDirName]) ++ [n])
          (by simp only [List.length_append, List.length_cons, List.length_nil]; omega)).mp hn
        simpa [List.append_assoc] using this
      · rw [statOk_mkdirAll_long fs cfg _
          (by simp only [List.length_append, List.length_cons, List.length_nil]; omega)] at hf
        simpa [List.append_assoc] using hf
    · rintro ⟨_, n, hn, hf⟩
      refine hiff.mpr ⟨n, ?_, ?_⟩
      · rw [mem_mkdirAll_dirs_iff fs cfg ((cfg ++ [AccountsDirName]) ++ [n])
          (by simp only [List.length_append, List.length_cons, List.length_nil]; omega)]
        simpa [List.append_assoc] using hn
      · rw [statOk_mkdirAll_long fs cfg _
          (by simp only [List.length_append, List.length_cons, List.length_nil]; omega)]
        simpa [List.append_assoc] using hf
  · rw [if_neg hmem]
    have hmemf : (cfg ++ [AccountsDirName]) ∉ fs.dirs :=
      fun hc => hmem ((mem_mkdirAll_dirs_iff fs cfg _ hlt1).mpr hc)
    simp [hmemf]

/-- C7 witness: a config area with one account directory containing a
token file is multi-account. -/
theorem is_multi_account_iff_witness :
    (IsMultiAccount envW fsOneAccount).1 = .ok true :=
  (is_multi_account_iff envW fsOneAccount ["cfg"] (by decide)).2.mpr
    ⟨by decide, "a", by decide, by decide⟩

/-- C8: for a valid account with a resolvable config root,
LoadSecretsForAccount returns the per-account secrets file when
present, falls back to the shared secrets file when the per-account
file is absent, and fails only when both are missing. -/
theorem store_secrets_fallback (env : Env) (A : String) (fs : FS) (cfg : FsPath)
    (hA : validateAccountName A = .ok ())
    (hcfg : configRoot env = .ok cfg) :
    (∀ d, fs.lookupFile (cfg ++ [AccountsDirName, A, SecretsFileName]) = some d →
      (LoadSecretsForAccount env A fs).1 = .ok d) ∧
    (fs.lookupFile (cfg ++ [AccountsDirName, A, SecretsFileName]) = none →
      ∀ d, fs.lookupFile (cfg ++ [SecretsFileName]) = some d →
      (LoadSecretsForAccount env A fs).1 = .ok d) ∧
    (fs.lookupFile (cfg ++ [AccountsDirName, A, SecretsFileName]) = none →
      fs.lookupFile (cfg ++ [SecretsFileName]) = none →
      (LoadSecretsForAccount env A fs).1 = .error (.notExist (cfg ++ [SecretsFileName]))) := by
  refine ⟨?_, ?_, ?_⟩
  · intro d hd
    simp [LoadSecretsForAccount, GetAccountDir, GetConfigDir, hA, hcfg,
      FS.lookupFile_mkdirAll, hd]
  · intro hdn d hd
    simp [LoadSecretsForAccount, GetAccountDir, GetConfigDir, LoadSecrets, hA, hcfg,
      FS.lookupFile_mkdirAll, hdn, hd]
  · intro hdn hsn
    simp [LoadSecretsForAccount, GetAccountDir, GetConfigDir, LoadSecrets, hA, hcfg,
      FS.lookupFile_mkdirAll, hdn, hsn]

/-- C8 witness: with no per-account secrets file, the shared secrets
are returned for account "alice". -/
theorem store_secrets_fallback_witness :
    (LoadSecretsForAccount envW "alice"
      ⟨[], [(["cfg", "client_secrets.json"], .bytes "shared")]⟩).1 = .ok (.bytes "shared") :=
  (store_secrets_fallback envW "alice"
    ⟨[], [(["cfg", "client_secrets.json"], .bytes "shared")]⟩ ["cfg"]
    (by decide) (by decide)).2.1 (by decide) (.bytes "shared") (by decide)

/-- C9 counterexample: when the caller context is cancelled before a
code arrives, Login returns the cancellation error and writes no token,
but it does NOT close the listener: server.Shutdown is never called on
this path, contradicting the claim that the listener is closed. -/
theorem login_cancel_claim_cex :
    (loginAfterListen envW fsEmpty (.ctxCancelled "context canceled")
      (fun _ => .ok tokW)).outcome = .error (.cancelled "context canceled") ∧
    (loginAfterListen envW fsEmpty (.ctxCancelled "context canceled")
      (fun _ => .ok tokW)).fs = fsEmpty ∧
    (loginAfterListen envW fsEmpty (.ctxCancelled "context canceled")
      (fun _ => .ok tokW)).serverShutdown = false := by decide

/-- C9 amended: if the caller context is cancelled before a code is
received, Login returns the cancellation error and writes no token to
the credential store, but the listener is not shut down on this path
(server.Shutdown runs only after a successful token save). -/
theorem login_cancelled_no_token_no_shutdown (env : Env) (fs : FS) (m : String)
    (exchange : String → Except String Token) :
    loginAfterListen env fs (.ctxCancelled m) exchange =
      { outcome := .error (.cancelled m), fs := fs, serverShutdown := false } :=
  rfl

/-- C10: a successful Login run changes the filesystem only by creating
the config root and writing the token at the legacy root path
<config>/token.json; nothing under accounts/ changes, so the results of
IsMultiAccount and ListAccounts are unchanged; the CLI auth login
subcommand defines no account flag, yet the registry's
no-accounts-configured message tells the user to pass an account flag
to the login flow. -/
theorem login_success_frame (env : Env) (fs : FS) (ev : LoginEvent)
    (exchange : String → Except String Token)
    (h : (loginAfterListen env fs ev exchange).outcome = .ok ()) :
    (∃ cfg t, configRoot env = .ok cfg ∧
      (loginAfterListen env fs ev exchange).fs =
        (fs.mkdirAll cfg).writeFile (cfg ++ [TokenFileName]) (.tokenJSON t)) ∧
    (IsMultiAccount env (loginAfterListen env fs ev exchange).fs).1 =
      (IsMultiAccount env fs).1 ∧
    (ListAccounts env (loginAfterListen env fs ev exchange).fs).1 =
      (ListAccounts env fs).1 ∧
    "account" ∉ authLoginFlags ∧
    stringsContains (regErrMessage .noAccountsConfigured) "--account" = true := by
  match ev with
  | .serverErr m => exact absurd h (by simp [loginAfterListen])
  | .ctxCancelled m => exact absurd h (by simp [loginAfterListen])
  | .codeReceived code =>
    match hx : exchange code with
    | .error m => exact absurd h (by simp [loginAfterListen, hx])
    | .ok t =>
      match hcfg : configRoot env with
      | .error e => exact absurd h (by simp [loginAfterListen, hx, SaveToken, GetConfigDir, hcfg])
      | .ok cfg =>
        have hfs : (loginAfterListen env fs (.codeReceived code) exchange).fs =
            (fs.mkdirAll cfg).writeFile (cfg ++ [TokenFileName]) (.tokenJSON t) := by
          simp [loginAfterListen, hx, SaveToken, GetConfigDir, hcfg]
        refine ⟨⟨cfg, t, rfl, hfs⟩, ?_, ?_, by decide, by decide⟩
        · rw [hfs]
          exact isMultiAccount_root_write env fs cfg (.tokenJSON t) hcfg
        · rw [hfs]
          exact listAccounts_root_write env fs cfg (.tokenJSON t) hcfg

/-- C10 witness: a successful login on the empty filesystem. -/
theorem login_success_frame_witness :
    (loginAfterListen envW fsEmpty (.codeReceived "code") (fun _ => .ok tokW)).outcome =
      .ok () ∧
    ((∃ cfg t, configRoot envW = .ok cfg ∧
      (loginAfterListen envW fsEmpty (.codeReceived "code") (fun _ => .ok tokW)).fs =
        (fsEmpty.mkdirAll cfg).writeFile (cfg ++ [TokenFileName]) (.tokenJSON t)) ∧
    (IsMultiAccount envW (loginAfterListen envW fsEmpty (.codeReceived "code")
        (fun _ => .ok tokW)).fs).1 = (IsMultiAccount envW fsEmpty).1 ∧
    (ListAccounts envW (loginAfterListen envW fsEmpty (.codeReceived "code")
        (fun _ => .ok tokW)).fs).1 = (ListAccounts envW fsEmpty).1 ∧
    "account" ∉ authLoginFlags ∧
    stringsContains (regErrMessage .noAccountsConfigured) "--account" = true) :=
  ⟨by decide, login_success_frame envW fsEmpty (.codeReceived "code") (fun _ => .ok tokW)
    (by decide)⟩
